import Mathlib

/-!
Shallow embedding of `src/main.go` of the rerss repository: an HTTP proxy that
fetches a remote RSS/Atom feed, filters its items by title (regex mode or
skip-word mode) and re-emits the surviving items as RSS.

Modelling conventions:
* `gofeed.Feed` / `gofeed.Item` become `SourceFeed` / `SourceItem`; the Go
  pointer fields `*Person` (`Author`) and `*time.Time` (`PublishedParsed`)
  become `Option` fields, with `none` standing for a nil pointer.
* Instants of time are abstract `Nat` values; the transform only copies them.
* A Go nil-pointer dereference is modelled as the explicit outcome
  `GoPanic`: it is a runtime panic, distinct from an error value returned by
  `writeFilteredRSS` (which the handler maps to HTTP 500).
* The network fetch `gofeed.NewParser().ParseURL` is a parameter of the
  handler: a function from the URL to either an error or a parsed feed.
* Go's `regexp` package is modelled with Mathlib's `RegularExpression`:
  `regexp.Compile` by a recursive-descent translation of the pattern string
  (a faithful subset of the syntax: literals, `|`, `*`, `+`, `?`, groups) and
  `Regexp.MatchString` by its documented semantics — an unanchored search for
  any matching substring.
-/

/-- `gofeed.Person` / `feeds.Author`: a name/email pair. -/
structure Person where
  name : String
  email : String
deriving DecidableEq, Repr

/-- `gofeed.Item`, the fields `main.go` reads.  `author` and
`publishedParsed` are pointers in Go (`*gofeed.Person`, `*time.Time`), hence
`Option` here. -/
structure SourceItem where
  title : String
  link : String
  description : String
  author : Option Person
  publishedParsed : Option Nat
deriving DecidableEq, Repr

/-- `gofeed.Feed`, the fields `main.go` reads. -/
structure SourceFeed where
  title : String
  link : String
  description : String
  author : Option Person
  items : List SourceItem
deriving DecidableEq, Repr

/-- `feeds.Item` as populated at `main.go:104-110`: every field is set from
the source item, and the author / created fields are obtained by
dereferencing the source pointers (`item.Author.Name`,
`*item.PublishedParsed`), so they are non-optional here. -/
structure OutputItem where
  title : String
  link : String
  description : String
  author : Person
  created : Nat
deriving DecidableEq, Repr

/-- `feeds.Feed` as populated at `main.go:92-100`. -/
structure OutputFeed where
  title : String
  link : String
  description : String
  author : Option Person
  created : Nat
  items : List OutputItem
deriving DecidableEq, Repr

/-- The two nil-pointer dereferences the item loop of `writeFilteredRSS` can
hit: `item.Author.Name` with a nil `Author` (`main.go:108`), and
`*item.PublishedParsed` with a nil `PublishedParsed` (`main.go:109`). -/
inductive GoPanic where
  | nilAuthor
  | nilPublished
deriving DecidableEq, Repr

/-- Building one `feeds.Item` from a kept `gofeed.Item` (`main.go:104-110`).
The composite literal evaluates `item.Author.Name` before
`*item.PublishedParsed`, so a nil author panics first. -/
def projectItem (item : SourceItem) : Except GoPanic OutputItem :=
  match item.author with
  | none => .error .nilAuthor
  | some a =>
    match item.publishedParsed with
    | none => .error .nilPublished
    | some t =>
      .ok { title := item.title, link := item.link,
            description := item.description, author := a, created := t }

/-- The item loop of `writeFilteredRSS` (`main.go:101-112`): walk the source
items in order, keep those whose title satisfies `keepItem`, and append the
projected output item; a nil dereference aborts the whole loop as a panic. -/
def transformItems (keepItem : String → Bool) :
    List SourceItem → Except GoPanic (List OutputItem)
  | [] => .ok []
  | item :: rest =>
    if keepItem item.title then
      match projectItem item with
      | .error p => .error p
      | .ok out => (transformItems keepItem rest).map (out :: ·)
    else
      transformItems keepItem rest

/-- Outcome of `writeFilteredRSS` (`main.go:86-115`): a returned error (the
fetch/parse failure, which the caller maps to HTTP 500), a runtime panic
from the item loop, or the finished output feed handed to `WriteRss`. -/
inductive PipelineResult where
  | fetchError (msg : String)
  | panicked (p : GoPanic)
  | ok (feed : OutputFeed)
deriving DecidableEq, Repr

/-- `writeFilteredRSS` (`main.go:86-115`).  `fetchResult` is the outcome of
`gofeed.NewParser().ParseURL(rssURL)`; `now` is `time.Now()`. -/
def writeFilteredRSS (keepItem : String → Bool)
    (fetchResult : Except String SourceFeed) (now : Nat) : PipelineResult :=
  match fetchResult with
  | .error e => .fetchError e
  | .ok originalFeed =>
    match transformItems keepItem originalFeed.items with
    | .error p => .panicked p
    | .ok outs =>
      .ok { title := originalFeed.title, link := originalFeed.link,
            description := originalFeed.description,
            author := originalFeed.author, created := now, items := outs }

/-- Go's `unicode.IsSpace` on the characters `strings.Fields` splits on:
the White_Space code points. -/
def isGoSpace (c : Char) : Bool :=
  c == ' ' || c == '\t' || c == '\n' || (0x0B ≤ c.toNat && c.toNat ≤ 0x0D) ||
  c.toNat == 0x85 || c.toNat == 0xA0 || c.toNat == 0x1680 ||
  (0x2000 ≤ c.toNat && c.toNat ≤ 0x200A) || c.toNat == 0x2028 ||
  c.toNat == 0x2029 || c.toNat == 0x202F || c.toNat == 0x205F ||
  c.toNat == 0x3000

/-- Worker for `goFields`: `cur` is the (reversed) token currently being
read; a white-space character ends the current token, anything else extends
it. -/
def fieldsAux : List Char → List Char → List String
  | cur, [] =>
    if cur.isEmpty then [] else [String.mk cur.reverse]
  | cur, c :: rest =>
    if isGoSpace c then
      if cur.isEmpty then fieldsAux [] rest
      else String.mk cur.reverse :: fieldsAux [] rest
    else
      fieldsAux (c :: cur) rest

/-- Go's `strings.Fields`: split around runs of white space, yielding the
maximal non-empty chunks. -/
def goFields (s : String) : List String :=
  fieldsAux [] s.data

/-- The body of the skip-mode closure (`main.go:61-68`): iterate over the
fields of the title, returning `false` on the first field contained in the
skip list, `true` if the loop completes. -/
def skipLoop (skips : List String) : List String → Bool
  | [] => true
  | word :: rest =>
    if skips.contains word then false else skipLoop skips rest

/-- The skip-mode predicate `keepItem` built at `main.go:60-68`. -/
def skipKeep (skips : List String) (contents : String) : Bool :=
  skipLoop skips (goFields contents)

/-- Regular expressions over characters, modelling the patterns
`regexp.Compile` produces (`main.go:54`). -/
abbrev Regex := RegularExpression Char

/-- The metacharacters of Go's regexp syntax.  The translation below covers
literals, alternation, grouping and the repetition operators; the remaining
metacharacters are not needed by any request in scope and are rejected. -/
def metachar (c : Char) : Bool :=
  c == '(' || c == ')' || c == '|' || c == '*' || c == '+' || c == '?' ||
  c == '.' || c == '[' || c == ']' || c == '{' || c == '}' || c == '^' ||
  c == '$' || c == '\\'

/-- A repetition operator after an atom: `r*`, `r+` (= `r r*`), `r?`
(= `r | ε`). -/
def applyPostfix (r : Regex) : List Char → Regex × List Char
  | '*' :: rest => (r.star, rest)
  | '+' :: rest => (r * r.star, rest)
  | '?' :: rest => (r + 1, rest)
  | rest => (r, rest)

mutual

/-- `regexp.Compile`, alternation level: `concat ('|' alt)?`. -/
def parseAlt : Nat → List Char → Except String (Regex × List Char)
  | 0, _ => .error "pattern too complex"
  | fuel + 1, cs =>
    match parseConcat fuel cs with
    | .error e => .error e
    | .ok (r, rest) =>
      match rest with
      | '|' :: rest2 =>
        match parseAlt fuel rest2 with
        | .error e => .error e
        | .ok (r2, rest3) => .ok (r + r2, rest3)
      | _ => .ok (r, rest)

/-- `regexp.Compile`, concatenation level: a possibly empty sequence of
atoms, stopping at `|`, `)` or the end of the pattern. -/
def parseConcat : Nat → List Char → Except String (Regex × List Char)
  | 0, _ => .error "pattern too complex"
  | fuel + 1, cs =>
    match cs with
    | [] => .ok (1, [])
    | ')' :: _ => .ok (1, cs)
    | '|' :: _ => .ok (1, cs)
    | _ =>
      match parseAtom fuel cs with
      | .error e => .error e
      | .ok (r1, rest) =>
        match parseConcat fuel rest with
        | .error e => .error e
        | .ok (r2, rest2) => .ok (r1 * r2, rest2)

/-- `regexp.Compile`, atom level: a group `( alt )` or a literal character,
followed by an optional repetition operator.  A `(` with no matching `)`
is a compilation error, as in Go. -/
def parseAtom : Nat → List Char → Except String (Regex × List Char)
  | 0, _ => .error "pattern too complex"
  | fuel + 1, cs =>
    match cs with
    | [] => .error "missing atom"
    | '(' :: rest =>
      match parseAlt fuel rest with
      | .error e => .error e
      | .ok (r, rest2) =>
        match rest2 with
        | ')' :: rest3 => .ok (applyPostfix r rest3)
        | _ => .error "missing closing )"
    | c :: rest =>
      if metachar c then .error "unexpected metacharacter"
      else .ok (applyPostfix (RegularExpression.char c) rest)

end

/-- `regexp.Compile(pattern)` (`main.go:54`): parse the whole pattern, or
fail with an error the handler reports as HTTP 400. -/
def compileRegex (pattern : String) : Except String Regex :=
  match parseAlt (4 * (pattern.length + 1)) pattern.data with
  | .error e => .error e
  | .ok (r, []) => .ok r
  | .ok (_, _ :: _) => .error "unexpected closing )"

/-- `Regexp.MatchString` (`main.go:59`): reports whether the string contains
any match of the regular expression — an unanchored search over all
contiguous substrings. -/
def goMatchString (r : Regex) (s : String) : Bool :=
  (s.data.tails.flatMap List.inits).any (fun t => r.rmatch t)

/-- The regex-mode predicate `keepItem = regex.MatchString`
(`main.go:59`). -/
def keepRe (r : Regex) (title : String) : Bool :=
  goMatchString r title

/-- The parts of `r.URL.Query()` the handler reads.  `re` holds the first
value of the `re` parameter when the key is present (`query.Has`,
`query.Get`), `skip` the full value slice of the `skip` key
(`query["skip"]`), `url` the first value of the `url` key.  `hasOther` is
true when the query holds further keys, so that `Query.isEmpty` models
`len(query) == 0`. -/
structure Query where
  re : Option String
  skip : Option (List String)
  url : Option String
  hasOther : Bool
deriving DecidableEq, Repr

/-- `len(query) == 0` at `main.go:46`. -/
def Query.isEmpty (q : Query) : Bool :=
  q.re.isNone && q.skip.isNone && q.url.isNone && !q.hasOther

/-- What `indexHandler` writes to the response: the embedded landing page,
an `http.Error` with status 400 or 500 and a plain-text body, the RSS
serialization of an output feed, or a runtime panic that aborts the handler
without writing a response through the handler's own code. -/
inductive Response where
  | indexPage
  | badRequest (body : String)
  | serverError (body : String)
  | rss (feed : OutputFeed)
  | panicked (p : GoPanic)
deriving DecidableEq, Repr

/-- Whether the response is an HTTP 500 written by
`http.Error(w, ..., http.StatusInternalServerError)`. -/
def Response.isServerError : Response → Bool
  | .serverError _ => true
  | _ => false

/-- Whether the response is an HTTP 400 written by
`http.Error(w, ..., http.StatusBadRequest)`. -/
def Response.isBadRequest : Response → Bool
  | .badRequest _ => true
  | _ => false

/-- The handler's outcome together with whether the upstream fetch
(`gofeed.NewParser().ParseURL`) was ever invoked. -/
structure HandlerResult where
  response : Response
  fetched : Bool
deriving DecidableEq, Repr

/-- The predicate-selection block of `indexHandler` (`main.go:51-72`):
`re` present → compile it (error → 400 body); else `skip` present → the
skip-word closure; else the 400 body `missing 'skip' or 're'`. -/
def buildPredicate (q : Query) : Except String (String → Bool) :=
  match q.re with
  | some pattern =>
    match compileRegex pattern with
    | .error e => .error e
    | .ok regex => .ok (keepRe regex)
  | none =>
    match q.skip with
    | some skips => .ok (skipKeep skips)
    | none => .error "missing 'skip' or 're'"

/-- `indexHandler` (`main.go:44-84`).  `fetch` models
`gofeed.NewParser().ParseURL` for each URL; `now` models `time.Now()`.
Note the source order: the filter parameters are validated before the
`url` parameter. -/
def indexHandler (q : Query) (fetch : String → Except String SourceFeed)
    (now : Nat) : HandlerResult :=
  if q.isEmpty then
    { response := .indexPage, fetched := false }
  else
    match buildPredicate q with
    | .error msg => { response := .badRequest msg, fetched := false }
    | .ok keepItem =>
      match q.url with
      | none => { response := .badRequest "missing 'url'", fetched := false }
      | some rssURL =>
        match writeFilteredRSS keepItem (fetch rssURL) now with
        | .fetchError e => { response := .serverError e, fetched := true }
        | .panicked p => { response := .panicked p, fetched := true }
        | .ok feed => { response := .rss feed, fetched := true }

/-- The three memory figures interpolated into `statusPattern` at
`main.go:140`, from the raw byte counts: `goMem.Alloc/1_024/1_024`,
`sysMem.Used/1_024/1_024/1_024`, `sysMem.Total/1_024/1_024/1_024`. -/
def statusDisplayed (alloc used total : Nat) : Nat × Nat × Nat :=
  (alloc / 1024 / 1024, used / 1024 / 1024 / 1024, total / 1024 / 1024 / 1024)

/-- The data an output item carries, in comparable form: the optional
fields are re-wrapped in `some` so it can be compared with `srcKey`. -/
def outKey (o : OutputItem) :
    String × String × String × Option Person × Option Nat :=
  (o.title, o.link, o.description, some o.author, some o.created)

/-- The data the item loop reads from a source item. -/
def srcKey (i : SourceItem) :
    String × String × String × Option Person × Option Nat :=
  (i.title, i.link, i.description, i.author, i.publishedParsed)

/-- Whether a filter mode can be resolved from the query: a compiling `re`
pattern, or (absent `re`) a present `skip` key. -/
def filterResolvable (q : Query) : Bool :=
  match q.re with
  | some pattern => (compileRegex pattern).isOk
  | none => q.skip.isSome

/-- Whether the body of an error response mentions the `url` parameter:
some contiguous substring of the body is the word `url`. -/
def mentionsUrl (body : String) : Bool :=
  body.data.tails.any (fun t => "url".data.isPrefixOf t)

theorem projectItem_ok_key {item : SourceItem} {o : OutputItem}
    (h : projectItem item = .ok o) : outKey o = srcKey item := by
  unfold projectItem at h
  cases ha : item.author with
  | none => rw [ha] at h; exact absurd h (by simp)
  | some a =>
    rw [ha] at h
    cases hp : item.publishedParsed with
    | none => rw [hp] at h; exact absurd h (by simp)
    | some t =>
      rw [hp] at h
      simp only [Except.ok.injEq] at h
      subst h
      simp [outKey, srcKey, ha, hp]

theorem transformItems_ok (keepItem : String → Bool) :
    ∀ (items : List SourceItem) (out : List OutputItem),
      transformItems keepItem items = .ok out →
      out.map outKey = (items.filter (fun i => keepItem i.title)).map srcKey := by
  intro items
  induction items with
  | nil =>
    intro out h
    simp only [transformItems, Except.ok.injEq] at h
    subst h
    simp
  | cons item rest ih =>
    intro out h
    simp only [transformItems] at h
    by_cases hk : keepItem item.title = true
    · rw [if_pos hk] at h
      cases hpi : projectItem item with
      | error p => rw [hpi] at h; exact absurd h (by simp)
      | ok o =>
        rw [hpi] at h
        cases ht : transformItems keepItem rest with
        | error p => rw [ht] at h; exact absurd h (by simp [Except.map])
        | ok outs =>
          rw [ht] at h
          simp only [Except.map, Except.ok.injEq] at h
          subst h
          simp only [List.filter_cons, hk, if_true, List.map]
          rw [projectItem_ok_key hpi, ih outs ht]
    · rw [if_neg hk] at h
      rw [ih out h]
      simp [List.filter_cons, hk]

theorem skipLoop_eq_true (skips : List String) (ws : List String) :
    skipLoop skips ws = true ↔ ∀ w ∈ ws, w ∉ skips := by
  induction ws with
  | nil => simp [skipLoop]
  | cons w rest ih =>
    by_cases h : w ∈ skips
    · have hc : skips.contains w = true := List.elem_iff.mpr h
      simp [skipLoop, hc, h]
    · have hc : skips.contains w = false := by
        rw [Bool.eq_false_iff]
        intro hcon
        exact h (List.elem_iff.mp hcon)
      simp [skipLoop, hc, ih, h]

theorem goMatchString_iff (r : Regex) (s : String) :
    goMatchString r s = true ↔
      ∃ pre mid post : List Char,
        s.data = pre ++ mid ++ post ∧ mid ∈ r.matches' := by
  unfold goMatchString
  rw [List.any_eq_true]
  constructor
  · rintro ⟨t, ht, hr⟩
    rw [List.mem_flatMap] at ht
    obtain ⟨a, hats, htin⟩ := ht
    have h1 : ∃ u, u ++ a = s.data := (List.mem_tails a s.data).mp hats
    have h2 : ∃ u, t ++ u = a := (List.mem_inits t a).mp htin
    obtain ⟨pre, hpre⟩ := h1
    obtain ⟨post, hpost⟩ := h2
    exact ⟨pre, t, post, by rw [← hpre, ← hpost, List.append_assoc],
      (RegularExpression.rmatch_iff_matches' r t).mp hr⟩
  · rintro ⟨pre, mid, post, hs, hm⟩
    refine ⟨mid, ?_, (RegularExpression.rmatch_iff_matches' r mid).mpr hm⟩
    rw [List.mem_flatMap]
    refine ⟨mid ++ post, ?_, ?_⟩
    · exact (List.mem_tails _ _).mpr
        ⟨pre, by rw [hs]; exact (List.append_assoc pre mid post).symm⟩
    · exact (List.mem_inits _ _).mpr ⟨post, rfl⟩

theorem keepRe_one_eq_true (title : String) : keepRe 1 title = true := by
  unfold keepRe
  rw [goMatchString_iff]
  refine ⟨[], [], title.data, by simp, ?_⟩
  rw [RegularExpression.matches'_epsilon]
  exact (Language.mem_one _).mpr rfl

/-- C1: for every source item list and every predicate, the transform's
output (when the loop completes without a panic) is exactly the items whose
title satisfies the predicate, in the original order — an order-preserving
projection with no duplications, insertions or re-ordering — and its length
is at most the source length. -/
theorem c1_output_is_filtered_subsequence (keepItem : String → Bool)
    (items : List SourceItem) (out : List OutputItem)
    (h : transformItems keepItem items = .ok out) :
    out.map outKey = (items.filter (fun i => keepItem i.title)).map srcKey ∧
    out.length ≤ items.length := by
  have hmap := transformItems_ok keepItem items out h
  refine ⟨hmap, ?_⟩
  have hlen : out.length = (items.filter (fun i => keepItem i.title)).length := by
    have := congrArg List.length hmap
    simpa using this
  rw [hlen]
  exact List.length_filter_le _ _

theorem c1_output_is_filtered_subsequence_witness :
    ([⟨"Alpha launch", "l1", "d1", ⟨"n", "e"⟩, 1⟩,
      ⟨"Gamma update", "l3", "d3", ⟨"n", "e"⟩, 3⟩] : List OutputItem).map outKey
      = (([⟨"Alpha launch", "l1", "d1", some ⟨"n", "e"⟩, some 1⟩,
           ⟨"Beta recall", "l2", "d2", some ⟨"n", "e"⟩, some 2⟩,
           ⟨"Gamma update", "l3", "d3", some ⟨"n", "e"⟩, some 3⟩] :
             List SourceItem).filter
            (fun i => skipKeep ["recall"] i.title)).map srcKey ∧
    ([⟨"Alpha launch", "l1", "d1", ⟨"n", "e"⟩, 1⟩,
      ⟨"Gamma update", "l3", "d3", ⟨"n", "e"⟩, 3⟩] : List OutputItem).length ≤
      ([⟨"Alpha launch", "l1", "d1", some ⟨"n", "e"⟩, some 1⟩,
        ⟨"Beta recall", "l2", "d2", some ⟨"n", "e"⟩, some 2⟩,
        ⟨"Gamma update", "l3", "d3", some ⟨"n", "e"⟩, some 3⟩] :
          List SourceItem).length :=
  c1_output_is_filtered_subsequence (skipKeep ["recall"]) _ _ (by rfl)

/-- C4: in skip mode the predicate keeps a title iff no whitespace-delimited
token of the title is exactly equal to any supplied skip word (case is never
folded and no substring matching happens — tokens are compared whole), and
with an empty skip word list every title is kept. -/
theorem c4_skip_mode_semantics (skips : List String) (title : String) :
    (skipKeep skips title = true ↔ ∀ w ∈ goFields title, w ∉ skips) ∧
    skipKeep [] title = true := by
  constructor
  · exact skipLoop_eq_true skips (goFields title)
  · rw [skipKeep, skipLoop_eq_true]
    intro w _ hw
    exact absurd hw (List.not_mem_nil w)

/-- C5: in regex mode the predicate keeps a title iff the compiled pattern
matches anywhere in the title: some contiguous substring of the title is in
the pattern's language (unanchored search, no full-match anchoring). -/
theorem c5_regex_mode_unanchored (r : Regex) (title : String) :
    keepRe r title = true ↔
      ∃ pre mid post : List Char,
        title.data = pre ++ mid ++ post ∧ mid ∈ r.matches' :=
  goMatchString_iff r title

/-- C6: when the `re` parameter is present but fails to compile, the
handler answers HTTP 400 (a client error, not a 500) carrying the compile
error, and the upstream fetch is never invoked. -/
theorem c6_invalid_regex_rejected_before_fetch (q : Query)
    (fetch : String → Except String SourceFeed) (now : Nat)
    (pattern e : String)
    (hre : q.re = some pattern) (hc : compileRegex pattern = .error e) :
    indexHandler q fetch now = ⟨.badRequest e, false⟩ := by
  have hne : q.isEmpty = false := by simp [Query.isEmpty, hre]
  simp [indexHandler, hne, buildPredicate, hre, hc]

theorem c6_invalid_regex_rejected_before_fetch_witness :
    compileRegex "(" = .error "missing closing )" ∧
    indexHandler ⟨some "(", none, some "u", false⟩
        (fun _ => .ok ⟨"t", "l", "d", none, []⟩) 0
      = ⟨.badRequest "missing closing )", false⟩ :=
  ⟨rfl, c6_invalid_regex_rejected_before_fetch _ _ _ "(" _ rfl rfl⟩

/-- C10: the empty `re` pattern compiles (to the empty regular expression,
which matches every title), so the predicate keeps everything and the item
loop keeps the entire source item list unchanged. -/
theorem c10_empty_pattern_keeps_everything :
    compileRegex "" = .ok 1 ∧
    (∀ sk u other, buildPredicate ⟨some "", sk, u, other⟩ = .ok (keepRe 1)) ∧
    (∀ title : String, keepRe 1 title = true) ∧
    (∀ (items : List SourceItem) (out : List OutputItem),
      transformItems (keepRe 1) items = .ok out →
      out.map outKey = items.map srcKey) := by
  refine ⟨rfl, fun sk u other => rfl, keepRe_one_eq_true, ?_⟩
  intro items out h
  have hmap := transformItems_ok (keepRe 1) items out h
  rwa [List.filter_eq_self.mpr (fun a _ => keepRe_one_eq_true a.title)] at hmap

theorem c10_empty_pattern_keeps_everything_witness :
    ([⟨"t1", "l1", "d1", ⟨"n", "e"⟩, 1⟩,
      ⟨"t2", "l2", "d2", ⟨"n", "e"⟩, 2⟩] : List OutputItem).map outKey =
      ([⟨"t1", "l1", "d1", some ⟨"n", "e"⟩, some 1⟩,
        ⟨"t2", "l2", "d2", some ⟨"n", "e"⟩, some 2⟩] :
          List SourceItem).map srcKey :=
  c10_empty_pattern_keeps_everything.2.2.2 _ _ (by rfl)

/-- C2 (amended): when a kept item lacks a parsed publication timestamp the
item loop aborts the request with a nil-pointer panic
(`*item.PublishedParsed` with a nil pointer) — the item is not skipped
silently — but no `MissingPublishedDate` error value exists and the
handler's HTTP 500 error path is not taken: the panic bypasses the
`http.Error(..., StatusInternalServerError)` call, which only sees errors
returned by `writeFilteredRSS`. -/
theorem c2_missing_date_panics_no_500 (q : Query)
    (fetch : String → Except String SourceFeed) (now : Nat)
    (keepItem : String → Bool) (feed : SourceFeed) (u : String)
    (hbp : buildPredicate q = .ok keepItem)
    (hurl : q.url = some u) (hf : fetch u = .ok feed)
    (ht : transformItems keepItem feed.items = .error .nilPublished) :
    (indexHandler q fetch now).response = .panicked .nilPublished ∧
    (indexHandler q fetch now).response.isServerError = false := by
  have hne : q.isEmpty = false := by simp [Query.isEmpty, hurl]
  simp [indexHandler, hne, hbp, hurl, writeFilteredRSS, hf, ht,
    Response.isServerError]

theorem c2_missing_date_panics_no_500_witness :
    (indexHandler ⟨none, some ["x"], some "u", false⟩
        (fun _ => .ok ⟨"t", "l", "d", none,
          [⟨"a", "al", "ad", some ⟨"n", "e"⟩, none⟩]⟩) 0).response
      = .panicked .nilPublished ∧
    (indexHandler ⟨none, some ["x"], some "u", false⟩
        (fun _ => .ok ⟨"t", "l", "d", none,
          [⟨"a", "al", "ad", some ⟨"n", "e"⟩, none⟩]⟩) 0).response.isServerError
      = false :=
  c2_missing_date_panics_no_500 _ _ 0 _ _ "u" rfl rfl rfl rfl

theorem c2_counterexample :
    (indexHandler ⟨none, some ["x"], some "v", false⟩
        (fun _ => .ok ⟨"t", "l", "d", none,
          [⟨"b", "bl", "bd", some ⟨"n", "e"⟩, none⟩]⟩) 0).response.isServerError
      = false ∧
    (indexHandler ⟨none, some ["x"], some "v", false⟩
        (fun _ => .ok ⟨"t", "l", "d", none,
          [⟨"b", "bl", "bd", some ⟨"n", "e"⟩, none⟩]⟩) 0).response
      = .panicked .nilPublished :=
  ⟨rfl, rfl⟩

/-- C3 (amended): for a kept source item whose author and publication
timestamp are present, the appended output item copies title, link,
description and author verbatim and takes its created time from the parsed
publication time; when the author is absent the loop instead panics
(`item.Author.Name` dereferences a nil pointer) and produces no output
item, so the transform is not total. -/
theorem c3_kept_item_fields_copied (keepItem : String → Bool)
    (item : SourceItem) (rest : List SourceItem) (a : Person) (t : Nat)
    (hk : keepItem item.title = true) (ha : item.author = some a)
    (hp : item.publishedParsed = some t) :
    transformItems keepItem (item :: rest) =
      (transformItems keepItem rest).map
        (fun outs =>
          (⟨item.title, item.link, item.description, a, t⟩ : OutputItem)
            :: outs) := by
  simp [transformItems, hk, projectItem, ha, hp]

theorem c3_kept_item_fields_copied_witness :
    transformItems (skipKeep ["zzz"])
        [⟨"t", "l", "d", some ⟨"n", "e"⟩, some 5⟩] =
      (transformItems (skipKeep ["zzz"]) []).map
        (fun outs => (⟨"t", "l", "d", ⟨"n", "e"⟩, 5⟩ : OutputItem) :: outs) :=
  c3_kept_item_fields_copied (skipKeep ["zzz"])
    ⟨"t", "l", "d", some ⟨"n", "e"⟩, some 5⟩ [] ⟨"n", "e"⟩ 5 rfl rfl rfl

theorem c3_counterexample :
    transformItems (skipKeep ["zzz"]) [⟨"t", "l", "d", none, some 0⟩]
      = .error .nilAuthor :=
  rfl

/-- C7 (amended): a non-empty query without a `url` parameter always gets
an HTTP 400, but its body mentions `url` only when the filter stage passed
first — the handler validates `re`/`skip` before `url`, so when no filter
mode is resolvable the 400 body reports the filter problem instead. -/
theorem c7_missing_url_400 (q : Query)
    (fetch : String → Except String SourceFeed) (now : Nat)
    (hne : q.isEmpty = false) (hurl : q.url = none) :
    (indexHandler q fetch now).response.isBadRequest = true ∧
    (filterResolvable q = true →
      (indexHandler q fetch now).response = .badRequest "missing 'url'") ∧
    mentionsUrl "missing 'url'" = true := by
  refine ⟨?_, ?_, rfl⟩
  · cases hre : q.re with
    | some pattern =>
      cases hc : compileRegex pattern with
      | error e =>
        simp [indexHandler, hne, buildPredicate, hre, hc,
          Response.isBadRequest]
      | ok r =>
        simp [indexHandler, hne, buildPredicate, hre, hc, hurl,
          Response.isBadRequest]
    | none =>
      cases hsk : q.skip with
      | some sk =>
        simp [indexHandler, hne, buildPredicate, hre, hsk, hurl,
          Response.isBadRequest]
      | none =>
        simp [indexHandler, hne, buildPredicate, hre, hsk,
          Response.isBadRequest]
  · intro hfr
    cases hre : q.re with
    | some pattern =>
      cases hc : compileRegex pattern with
      | error e =>
        simp [filterResolvable, hre, hc, Except.isOk, Except.toBool] at hfr
      | ok r =>
        simp [indexHandler, hne, buildPredicate, hre, hc, hurl]
    | none =>
      cases hsk : q.skip with
      | some sk =>
        simp [indexHandler, hne, buildPredicate, hre, hsk, hurl]
      | none =>
        simp [filterResolvable, hre, hsk] at hfr

theorem c7_missing_url_400_witness :
    (indexHandler ⟨none, some ["a"], none, false⟩
        (fun _ => .error "x") 0).response.isBadRequest = true ∧
    (filterResolvable ⟨none, some ["a"], none, false⟩ = true →
      (indexHandler ⟨none, some ["a"], none, false⟩
          (fun _ => .error "x") 0).response = .badRequest "missing 'url'") ∧
    mentionsUrl "missing 'url'" = true :=
  c7_missing_url_400 ⟨none, some ["a"], none, false⟩ (fun _ => .error "x") 0
    rfl rfl

theorem c7_counterexample :
    (indexHandler ⟨none, none, none, true⟩
        (fun _ => .error "x") 0).response
      = .badRequest "missing 'skip' or 're'" ∧
    mentionsUrl "missing 'skip' or 're'" = false :=
  ⟨rfl, rfl⟩

/-- C8: when the upstream fetch or parse fails, the handler answers
HTTP 500 carrying the error's message; `writeFilteredRSS` returns before
constructing the output feed, so `WriteRss` is never reached and no RSS
bytes are written — the response is only the error body. -/
theorem c8_fetch_error_500_no_rss (q : Query)
    (fetch : String → Except String SourceFeed) (now : Nat)
    (keepItem : String → Bool) (u msg : String)
    (hbp : buildPredicate q = .ok keepItem)
    (hurl : q.url = some u) (hf : fetch u = .error msg) :
    indexHandler q fetch now = ⟨.serverError msg, true⟩ := by
  have hne : q.isEmpty = false := by simp [Query.isEmpty, hurl]
  simp [indexHandler, hne, hbp, hurl, writeFilteredRSS, hf]

theorem c8_fetch_error_500_no_rss_witness :
    indexHandler ⟨none, some ["a"], some "http-url", false⟩
        (fun _ => .error "404 Not Found") 0
      = ⟨.serverError "404 Not Found", true⟩ :=
  c8_fetch_error_500_no_rss _ _ 0 (skipKeep ["a"]) "http-url" "404 Not Found"
    rfl rfl rfl

/-- C9 (amended): the status report divides the process allocation by 1024
twice (mebibytes) but divides the host used and total figures by 1024 three
times — the extra division compensating host stats the source comments call
"off by a 1024" — so the host figures are in gibibytes, not megabytes. -/
theorem c9_status_memory_units (alloc used total : Nat) :
    statusDisplayed alloc used total =
      (alloc / 2 ^ 20, used / 2 ^ 30, total / 2 ^ 30) := by
  unfold statusDisplayed
  norm_num [Nat.div_div_eq_div_mul]

theorem c9_counterexample :
    (statusDisplayed 1048576 1073741824 2147483648).2.1 = 1 ∧
    1073741824 / 1024 / 1024 = (1024 : Nat) ∧
    (1 : Nat) ≠ 1024 := by
  refine ⟨rfl, by norm_num, by norm_num⟩
